import Mathlib

/-!
Shallow embedding of the AdsorptionAnalysis numerical core.

The repository has four batch entry points, one per analysis kind:
`run_kinetic_fitting` (src/app.py), `run_isotherm_fitting`
(src/isotherms.py), `run_ftir_analysis` (src/ftir.py) and
`run_xrd_analysis` (src/xrd.py).  Each iterates over the sheets of an
Excel workbook; the numeric work per sheet is curve fitting (via lmfit)
or peak detection / nearest-neighbour reference matching (via
scipy/numpy), and the results are aggregated into a pandas DataFrame.

The embedding below models numbers as rationals.  The calls into lmfit's
iterative optimizer are external collaborators: each `Model.fit` call is
represented by an oracle value `Option FitRec` (`none` means the call
raised an exception, `some r` means it returned a result `r` whose
residual vector and parameter values are `r`'s fields).  Everything the
repository itself computes around those calls — control flow, exception
handling, the R-squared formulas, numpy reductions, scipy's
`find_peaks`/prominence algorithm, `np.argsort` selection, `np.argmin`
matching and the pandas sorts — is embedded directly from the source.
-/

/-! ## Numpy scalar helpers (sums, means, variances) -/

/-- Sum of squares of a list, `np.sum(res**2)` in src/isotherms.py lines 55 and 71. -/
def sumSq (l : List ℚ) : ℚ :=
  (l.map (fun x => x ^ 2)).sum

/-- `np.mean` of a nonempty array; the rational mean of the entries. -/
def npMean (l : List ℚ) : ℚ :=
  l.sum / (l.length : ℚ)

/-- Sum of squared deviations from the mean: `np.sum((y - np.mean(y))**2)`
(src/isotherms.py lines 55 and 71). -/
def ssTot (l : List ℚ) : ℚ :=
  (l.map (fun x => (x - npMean l) ^ 2)).sum

/-- Population variance `np.var` (ddof = 0), used by src/app.py lines 50 and 62. -/
def npVar (l : List ℚ) : ℚ :=
  ssTot l / (l.length : ℚ)

/-- `np.max` of a nonempty array (src/app.py line 37, src/isotherms.py line 42).
On an empty array `np.max` raises; callers guard that case separately. -/
def npMax (l : List ℚ) : ℚ :=
  l.foldl max (l.headD 0)

/-! ## IEEE-style special values produced by numpy division

Numpy float division by zero does not raise: it emits a warning and
produces `inf`, `-inf` or `nan`.  `NpVal` carries a finite rational or
one of those three non-finite sentinels. -/

/-- A numpy float: either a finite rational or a non-finite sentinel. -/
inductive NpVal where
  | fin : ℚ → NpVal
  | nan : NpVal
  | inf : NpVal
  | ninf : NpVal
deriving DecidableEq

/-- Whether a numpy value is finite. -/
def NpVal.isFin : NpVal → Bool
  | NpVal.fin _ => true
  | _ => false

/-- Numpy division of two finite floats: `0/0 = nan`, `a/0 = ±inf` for `a ≠ 0`
(warning only, no exception), otherwise ordinary division. -/
def npDivQ (a b : ℚ) : NpVal :=
  if b = 0 then
    if a = 0 then NpVal.nan else if 0 < a then NpVal.inf else NpVal.ninf
  else NpVal.fin (a / b)

/-- `1 - x` on numpy floats: subtraction from a finite value maps
`nan ↦ nan`, `inf ↦ -inf`, `-inf ↦ inf`. -/
def npOneSub : NpVal → NpVal
  | NpVal.fin x => NpVal.fin (1 - x)
  | NpVal.nan => NpVal.nan
  | NpVal.inf => NpVal.ninf
  | NpVal.ninf => NpVal.inf

/-! ## The two R-squared formulas of the repository -/

/-- The kinetics R-squared, src/app.py lines 50 and 62:
`1 - result.residual.var() / np.var(q_data)` — a ratio of population
variances, each deviation taken from its own mean. -/
def r2Kinetics (res y : List ℚ) : NpVal :=
  npOneSub (npDivQ (npVar res) (npVar y))

/-- The isotherm R-squared, src/isotherms.py lines 55 and 71:
`1 - np.sum(result.residual**2) / np.sum((qe_data - np.mean(qe_data))**2)`. -/
def r2Isotherm (res y : List ℚ) : NpVal :=
  npOneSub (npDivQ (sumSq res) (ssTot y))

/-! ## Fit records and the per-sheet / batch control flow -/

/-- One row appended to `results_list`: sheet name, model name, the two
fitted parameter values and the reported R-squared. -/
structure FitRec where
  sheet : String
  model : String
  p1 : ℚ
  p2 : ℚ
  r2 : NpVal
deriving DecidableEq

/-- The two kinetic models set up in src/app.py lines 36-40. -/
inductive KModel where
  | pfo : KModel
  | pso : KModel
deriving DecidableEq

/-- The two isotherm models set up in src/isotherms.py lines 41-45. -/
inductive IModel where
  | langmuir : IModel
  | freundlich : IModel
deriving DecidableEq

/-- Numpy/pandas exceptions that escape the per-sheet code. -/
inductive RunErr where
  | valueError : RunErr
  | keyError : RunErr
deriving DecidableEq

/-- One kinetics sheet after per-column `dropna`: the cleaned `qt` column
and the oracle outcomes of the two `Model.fit` calls (`none` = the call
raised). -/
structure KSheet where
  q : List ℚ
  o1 : Option FitRec
  o2 : Option FitRec

/-- One isotherm sheet after per-column `dropna`: both cleaned columns and
the oracle outcomes of the Langmuir and Freundlich `Model.fit` calls. -/
structure ISheet where
  ce : List ℚ
  q : List ℚ
  oL : Option FitRec
  oF : Option FitRec

/-- Per-sheet control flow of `run_kinetic_fitting` (src/app.py lines 36-73).
`np.max(q_data)` at line 37 raises `ValueError` on an empty array, outside
any `try`.  Lines 46-73 are a single `try` block containing both fits:
the first-order fit runs first; if it raises, the `except` at line 71
skips the rest of the sheet, so the second-order fit is never attempted.
If the first-order fit succeeds its row is appended before the
second-order fit runs; a second-order failure then leaves that row in
place.  The second component lists the models whose `fit` call was
actually executed. -/
def kineticsSheetStep (q : List ℚ) (o1 o2 : Option FitRec) :
    Except RunErr (List FitRec × List KModel) :=
  if q.length = 0 then Except.error RunErr.valueError
  else
    Except.ok (match o1 with
      | Option.none => ([], [KModel.pfo])
      | Option.some r1 => (r1 :: o2.toList, [KModel.pfo, KModel.pso]))

/-- The kinetics batch loop (src/app.py lines 26-87): sheets are processed
in order; an uncaught exception (the `np.max` of an empty column)
propagates and aborts the whole run. -/
def kineticsBatch : List KSheet → Except RunErr (List FitRec)
  | [] => Except.ok []
  | s :: rest =>
    match kineticsSheetStep s.q s.o1 s.o2 with
    | Except.error e => Except.error e
    | Except.ok p =>
      match kineticsBatch rest with
      | Except.error e => Except.error e
      | Except.ok rs => Except.ok (p.1 ++ rs)

/-- The tail of `run_kinetic_fitting` (src/app.py lines 89-95): an empty
`results_list` yields `None` (an explicit empty signal), otherwise the
summary rows. -/
def kineticsFinalize (rows : List FitRec) : Option (List FitRec) :=
  if rows.length = 0 then Option.none else Option.some rows

/-- Per-sheet control flow of `run_isotherm_fitting` (src/isotherms.py
lines 36-81).  Lines 36-38 skip a sheet in which either cleaned column is
empty (no fit attempted).  Each model's fit sits in its own `try` block
(lines 52-66 and 68-81), so a failure of one never prevents the other.
The second component lists the models whose `fit` call was executed. -/
def isothermSheetStep (ce q : List ℚ) (oL oF : Option FitRec) :
    List FitRec × List IModel :=
  if ce.length = 0 ∨ q.length = 0 then ([], [])
  else (oL.toList ++ oF.toList, [IModel.langmuir, IModel.freundlich])

/-- The isotherm batch loop (src/isotherms.py lines 26-95): no exception
escapes a sheet, results accumulate across sheets. -/
def isothermBatch : List ISheet → List FitRec
  | [] => []
  | s :: rest => (isothermSheetStep s.ce s.q s.oL s.oF).1 ++ isothermBatch rest

/-- The tail of `run_isotherm_fitting` (src/isotherms.py lines 97-103):
`None` on an empty results list, otherwise the summary rows. -/
def isothermFinalize (rows : List FitRec) : Option (List FitRec) :=
  if rows.length = 0 then Option.none else Option.some rows

/-- `run_isotherm_fitting` end to end over the fit oracle. -/
def isothermRun (sheets : List ISheet) : Option (List FitRec) :=
  isothermFinalize (isothermBatch sheets)

/-! ## Model catalog: formulas and initial guesses

The model bodies are embedded from src/app.py lines 13-17 and
src/isotherms.py lines 13-17.  `np.exp` and the rational power
`Ce**(1/n)` are transcendental; they are passed in as function
parameters so that every definition stays executable, and the
code/spec comparison is quantified over them. -/

/-- `pseudo_first_order` (src/app.py lines 13-14):
`q_e * (1 - np.exp(-k1 * t))`. -/
def pseudo_first_order (ex : ℚ → ℚ) (t qe k1 : ℚ) : ℚ :=
  qe * (1 - ex (-k1 * t))

/-- `pseudo_second_order` (src/app.py lines 16-17):
`(q_e**2 * k2 * t) / (1 + q_e * k2 * t)`. -/
def pseudo_second_order (t qe k2 : ℚ) : ℚ :=
  (qe ^ 2 * k2 * t) / (1 + qe * k2 * t)

/-- `langmuir_isotherm` (src/isotherms.py lines 13-14):
`(q_m * k_L * Ce) / (1 + k_L * Ce)`. -/
def langmuir_isotherm (ce qm kL : ℚ) : ℚ :=
  (qm * kL * ce) / (1 + kL * ce)

/-- `freundlich_isotherm` (src/isotherms.py lines 16-17):
`k_F * Ce**(1 / n)`; the power map is the `rp` parameter. -/
def freundlich_isotherm (rp : ℚ → ℚ → ℚ) (ce kF n : ℚ) : ℚ :=
  kF * rp ce (1 / n)

/-- Initial guesses of the first-order fit (src/app.py line 37):
`q_e = np.max(q_data), k1 = 0.1`. -/
def pfoInit (y : List ℚ) : ℚ × ℚ :=
  (npMax y, 1 / 10)

/-- Initial guesses of the second-order fit (src/app.py line 40):
`q_e = np.max(q_data), k2 = 0.001`. -/
def psoInit (y : List ℚ) : ℚ × ℚ :=
  (npMax y, 1 / 1000)

/-- Initial guesses of the Langmuir fit (src/isotherms.py line 42):
`q_m = np.max(qe_data), k_L = 0.1`. -/
def langmuirInit (y : List ℚ) : ℚ × ℚ :=
  (npMax y, 1 / 10)

/-- Initial guesses of the Freundlich fit (src/isotherms.py line 45):
`k_F = 1.0, n = 1.0`. -/
def freundlichInit (_y : List ℚ) : ℚ × ℚ :=
  (1, 1)

/-- A catalog entry: model name, formula (over the exp and power oracles,
independent variable, two parameters) and initial-guess rule. -/
structure ModelEntry where
  name : String
  formula : (ℚ → ℚ) → (ℚ → ℚ → ℚ) → ℚ → ℚ → ℚ → ℚ
  init : List ℚ → ℚ × ℚ

/-- The kinetic models, in the order they are set up and fit in
src/app.py (lines 36-40, 48, 60). -/
def kineticsCatalog : List ModelEntry :=
  [⟨"Pseudo First Order", fun ex _ t qe k1 => pseudo_first_order ex t qe k1, pfoInit⟩,
   ⟨"Pseudo Second Order", fun _ _ t qe k2 => pseudo_second_order t qe k2, psoInit⟩]

/-- The isotherm models, in the order they are set up and fit in
src/isotherms.py (lines 41-45, 53, 69). -/
def isothermCatalog : List ModelEntry :=
  [⟨"Langmuir", fun _ _ ce qm kL => langmuir_isotherm ce qm kL, langmuirInit⟩,
   ⟨"Freundlich", fun _ rp ce kF n => freundlich_isotherm rp ce kF n, freundlichInit⟩]

/-! Reference definitions written from the spec's model table (§4.2),
to be compared with the embedded source formulas. -/

/-- Spec table row 1: `q(t) = qe·(1 − e^(−k1·t))`, guesses `qe = max(y); k1 = 0.1`. -/
def specPfo (ex : ℚ → ℚ) (t qe k1 : ℚ) : ℚ :=
  qe * (1 - ex (-(k1 * t)))

/-- Spec table row 2: `q(t) = qe²·k2·t / (1 + qe·k2·t)`, guesses `qe = max(y); k2 = 0.001`. -/
def specPso (t qe k2 : ℚ) : ℚ :=
  qe ^ 2 * k2 * t / (1 + qe * k2 * t)

/-- Spec table row 3: `qe(Ce) = qm·kL·Ce / (1 + kL·Ce)`, guesses `qm = max(y); kL = 0.1`. -/
def specLangmuir (ce qm kL : ℚ) : ℚ :=
  qm * kL * ce / (1 + kL * ce)

/-- Spec table row 4: `qe(Ce) = kF·Ce^(1/n)`, guesses `kF = 1.0; n = 1.0`. -/
def specFreundlich (rp : ℚ → ℚ → ℚ) (ce kF n : ℚ) : ℚ :=
  kF * rp ce (1 / n)

/-- The spec's `max(y)`: the maximum of a nonempty series, via `List.max?`. -/
def specMax (y : List ℚ) : ℚ :=
  (y.max?).getD 0

/-! ## Per-column missing-value removal (kinetics/isotherm loaders)

src/app.py lines 32-33 and src/isotherms.py lines 32-33 call
`.dropna()` on each of the two columns of a sheet separately.  A sheet
is a list of rows, each row an optional x-cell and an optional y-cell
(`none` = NaN). -/

/-- Per-column cleaning, exactly as the source does it: drop the missing
cells of each column independently. -/
def dropnaColumns (rows : List (Option ℚ × Option ℚ)) : List ℚ × List ℚ :=
  ((rows.map Prod.fst).filterMap id, (rows.map Prod.snd).filterMap id)

/-- Row-wise cleaning, the alternative reading the claim contrasts with:
keep a row only when both cells are present, pairing by original row. -/
def rowwiseDropna (rows : List (Option ℚ × Option ℚ)) : List (ℚ × ℚ) :=
  rows.filterMap (fun r =>
    match r with
    | (Option.some a, Option.some b) => Option.some (a, b)
    | _ => Option.none)

/-! ## Peak detection: scipy `find_peaks` with a prominence filter

src/xrd.py line 65 calls `scipy.signal.find_peaks(intensity,
prominence=peak_prominence)`.  scipy's `_local_maxima_1d` records, for
every maximal plateau `x[l..r]` with `1 ≤ l`, `r ≤ n-2`,
`x[l-1] < x[l]` and `x[r+1] < x[r]`, the midpoint `(l+r)/2`; strict
single-sample maxima are the `l = r` case.  `_peak_prominences` then
descends from each peak to either side while samples stay `≤` the peak
height, and the prominence is the peak height minus the higher of the
two minima found.  Finally candidates with prominence `< threshold`
are dropped (`keep = pmin <= prominences`). -/

/-- Length of the run of leading elements equal to `v`. -/
def plateauLen (v : ℚ) : List ℚ → Nat
  | [] => 0
  | a :: r => if a = v then 1 + plateauLen v r else 0

/-- Whether index `i` is the left edge of a local-maximum plateau of `x`,
following scipy's `_local_maxima_1d`: `i ≥ 1`, a strict rise into `i`,
and a strict fall after the plateau, which must end before the last
sample. -/
def isLeftEdgeMax (x : List ℚ) (i : Nat) : Bool :=
  match i with
  | 0 => false
  | Nat.succ j =>
    let v := x.getD (j + 1) 0
    let k := plateauLen v (x.drop (j + 2))
    decide (x.getD j 0 < v) && decide (j + 2 + k < x.length) &&
      decide (x.getD (j + 2 + k) 0 < v)

/-- The peak indices returned by `find_peaks` before any filtering: the
midpoint `l + (r-l)/2` of every local-maximum plateau `[l, r]`. -/
def peakMidpoints (x : List ℚ) : List Nat :=
  ((List.range x.length).filter (fun i => isLeftEdgeMax x i)).map
    (fun i => i + plateauLen (x.getD i 0) (x.drop (i + 1)) / 2)

/-- The running minimum of the prefix of samples `≤ v`, starting from `m`:
the side scan of scipy's `_peak_prominences`, which stops at the first
sample strictly above the peak height `v`. -/
def scanMin (v : ℚ) : List ℚ → ℚ → ℚ
  | [], m => m
  | a :: r, m => if a ≤ v then scanMin v r (min m a) else m

/-- Prominence of the sample at index `p` of `x`, as computed by scipy's
`_peak_prominences` with no window length. -/
def promAt (x : List ℚ) (p : Nat) : ℚ :=
  let v := x.getD p 0
  let lmin := scanMin v ((x.take p).reverse) v
  let rmin := scanMin v (x.drop (p + 1)) v
  v - max lmin rmin

/-- `find_peaks(x, prominence=pm)`: candidate peaks paired with their
prominences, keeping those with prominence `≥ pm`. -/
def keptPeaks (x : List ℚ) (pm : ℚ) : List (Nat × ℚ) :=
  (((peakMidpoints x).map (fun p => (p, promAt x p))).filter (fun q => pm ≤ q.2))

/-- `np.argsort l`: the indices of `l` ordered by ascending value
(embedded with a stable insertion sort; any correct sort realizes
`np.argsort`'s contract). -/
def argsortNp (l : List ℚ) : List Nat :=
  List.insertionSort (fun i j => l.getD i 0 ≤ l.getD j 0) (List.range l.length)

/-- The Python slice `a[-k:]` used at src/xrd.py line 66: the last `k`
elements — and the whole list when `k = 0`, since `a[-0:]` is `a[0:]`. -/
def pyLastSlice (k : Nat) (l : List α) : List α :=
  if k = 0 then l else l.drop (l.length - k)

/-- src/xrd.py line 66:
`peaks[np.argsort(properties['prominences'])[-num_peaks:]]` —
the positions of the (at most) `k` most prominent qualifying peaks. -/
def prominentPeaks (x : List ℚ) (pm : ℚ) (k : Nat) : List Nat :=
  let kp := keptPeaks x pm
  (pyLastSlice k (argsortNp (kp.map Prod.snd))).map
    (fun i => (kp.map Prod.fst).getD i 0)

/-! ## XRD per-sheet records and summary -/

/-- One XRD summary row: sample name, 2-theta position, intensity. -/
structure XRec where
  sample : String
  theta : ℚ
  intensity : ℚ
deriving DecidableEq

/-- The ordering used by `sort_values(by='Intensity', ascending=False)`
on one sheet's peak table (src/xrd.py line 73). -/
def xIntensityGe (a b : XRec) : Prop :=
  b.intensity ≤ a.intensity

instance : DecidableRel xIntensityGe := fun a b =>
  inferInstanceAs (Decidable (b.intensity ≤ a.intensity))

/-- The per-sheet peak table of src/xrd.py lines 69-73: one row per
selected peak, sorted by intensity descending (pandas `sort_values`,
embedded as an insertion sort realizing the same ordering contract). -/
def xrdSheetRecords (sample : String) (theta intensity : List ℚ) (pm : ℚ)
    (k : Nat) : List XRec :=
  List.insertionSort xIntensityGe
    ((prominentPeaks intensity pm k).map
      (fun p => ⟨sample, theta.getD p 0, intensity.getD p 0⟩))

/-- The ordering of `sort_values(by=['Sample', 'Intensity'],
ascending=[True, False])` at src/xrd.py line 100: sample name ascending,
then intensity descending. -/
def xSummaryLe (a b : XRec) : Prop :=
  a.sample < b.sample ∨ (a.sample = b.sample ∧ b.intensity ≤ a.intensity)

instance : DecidableRel xSummaryLe := fun a b =>
  inferInstanceAs (Decidable (a.sample < b.sample ∨
    (a.sample = b.sample ∧ b.intensity ≤ a.intensity)))

/-- The tail of `run_xrd_analysis` (src/xrd.py lines 99-101):
`pd.DataFrame(summary_results)` followed by
`sort_values(by=['Sample', 'Intensity'], ascending=[True, False])`.
`pd.DataFrame` of an empty record list has no columns at all, so the
`sort_values` call raises `KeyError: 'Sample'`; on a nonempty list the
columns exist and the rows are sorted. -/
def xrdFinalize (rows : List XRec) : Except RunErr (List XRec) :=
  if rows.length = 0 then Except.error RunErr.keyError
  else Except.ok (List.insertionSort xSummaryLe rows)

/-- `run_xrd_analysis` end to end: per-sheet peak tables (sheets given as
name, 2-theta column, intensity column) concatenated in sheet order,
then the final summary sort. -/
def xrdRun (sheets : List (String × List ℚ × List ℚ)) (pm : ℚ) (k : Nat) :
    Except RunErr (List XRec) :=
  xrdFinalize (sheets.flatMap (fun s => xrdSheetRecords s.1 s.2.1 s.2.2 pm k))

/-! ## FTIR: reference peak matching

src/ftir.py sorts each sheet's wavenumber axis into descending order
(lines 57-59), then for each predefined reference peak picks the axis
index of smallest absolute distance to the reference wavenumber with
`np.argmin` (lines 89-92), which returns the FIRST position attaining
the minimum. -/

/-- A predefined reference peak: target wavenumber and label. -/
structure FRef where
  target : ℚ
  label : String
deriving DecidableEq

/-- The predefined FTIR reference peaks (src/ftir.py lines 7-16). -/
def ftirRefs : List FRef :=
  [⟨3400, "O-H Stretch (Alcohol)"⟩,
   ⟨3400, "N-H Stretch (Amine)"⟩,
   ⟨1700, "C=O Stretch (Carbonyl)"⟩,
   ⟨2900, "C-H Stretch (Alkane)"⟩,
   ⟨1650, "C=C Stretch (Alkene)"⟩,
   ⟨2200, "C≡C Stretch (Alkyne)"⟩,
   ⟨1100, "C-O Stretch (Ether)"⟩,
   ⟨1650, "C=N Stretch (Imine)"⟩]

/-- `np.argmin` of the distances `|axis[i] - t|`: the first index of a
minimal absolute difference (`0` on an empty axis, where numpy would
raise; callers pass nonempty axes). -/
def argminAbs (t : ℚ) : List ℚ → Nat
  | [] => 0
  | [_] => 0
  | a :: b :: rest =>
    let j := argminAbs t (b :: rest)
    if |(b :: rest).getD j 0 - t| < |a - t| then j + 1 else 0

/-- The matching loop of src/ftir.py lines 89-92: for each reference, the
axis value and parallel y-value at the nearest-neighbour index.  One
output pair per reference, unconditionally. -/
def matchRefs (axis vals : List ℚ) (refs : List FRef) : List (ℚ × ℚ) :=
  refs.map (fun r =>
    (axis.getD (argminAbs r.target axis) 0, vals.getD (argminAbs r.target axis) 0))

/-- One FTIR summary row (src/ftir.py lines 100-105): sample name, matched
wavenumber, matched transmittance. -/
structure FRow where
  sample : String
  wavenumber : ℚ
  transmittance : ℚ
deriving DecidableEq

/-- The ordering of `sort_values(by=['Sample', 'Transmittance'],
ascending=[True, False])` at src/ftir.py line 130. -/
def fSummaryLe (a b : FRow) : Prop :=
  a.sample < b.sample ∨ (a.sample = b.sample ∧ b.transmittance ≤ a.transmittance)

instance : DecidableRel fSummaryLe := fun a b =>
  inferInstanceAs (Decidable (a.sample < b.sample ∨
    (a.sample = b.sample ∧ b.transmittance ≤ a.transmittance)))

/-- One FTIR sheet (src/ftir.py lines 53-105): reorder both columns by
descending wavenumber (`np.argsort(wavenumber)[::-1]`, lines 57-59),
then emit one summary row per predefined reference peak. -/
def ftirSheetRows (sample : String) (wn tr : List ℚ) : List FRow :=
  let idx := (argsortNp wn).reverse
  let wn2 := idx.map (fun i => wn.getD i 0)
  let tr2 := idx.map (fun i => tr.getD i 0)
  (matchRefs wn2 tr2 ftirRefs).map (fun p => ⟨sample, p.1, p.2⟩)

/-- The tail of `run_ftir_analysis` (src/ftir.py lines 129-130):
`pd.DataFrame(summary_results)` then `sort_values(by=['Sample',
'Transmittance'], ascending=[True, False])`.  As in the XRD path, an
empty record list yields a DataFrame with no columns and the
`sort_values` call raises `KeyError: 'Sample'`. -/
def ftirFinalize (rows : List FRow) : Except RunErr (List FRow) :=
  if rows.length = 0 then Except.error RunErr.keyError
  else Except.ok (List.insertionSort fSummaryLe rows)

/-- `run_ftir_analysis` end to end: per-sheet reference rows concatenated
in sheet order, then the final summary sort. -/
def ftirRun (sheets : List (String × List ℚ × List ℚ)) : Except RunErr (List FRow) :=
  ftirFinalize (sheets.flatMap (fun s => ftirSheetRows s.1 s.2.1 s.2.2))

/-! ## Arithmetic facts about the numpy helpers -/

/-- `sumSq` of a cons. -/
theorem sumSq_cons (a : ℚ) (t : List ℚ) : sumSq (a :: t) = a ^ 2 + sumSq t := by
  simp [sumSq]

/-- The sum of a constant list. -/
theorem list_sum_const (c : ℚ) (l : List ℚ) (h : ∀ a ∈ l, a = c) :
    l.sum = c * l.length := by
  induction l with
  | nil => simp
  | cons a t ih =>
    have ha : a = c := h a (List.mem_cons_self a t)
    have ht := ih (fun b hb => h b (List.mem_cons_of_mem a hb))
    rw [List.sum_cons, ht, ha, List.length_cons]
    push_cast
    ring

/-- The mean of a nonempty constant list is the constant. -/
theorem npMean_const (c : ℚ) (l : List ℚ) (hl : l ≠ []) (h : ∀ a ∈ l, a = c) :
    npMean l = c := by
  have h0 : l.length ≠ 0 := fun h0 => hl (List.length_eq_zero.mp h0)
  have hn : (l.length : ℚ) ≠ 0 := Nat.cast_ne_zero.mpr h0
  unfold npMean
  rw [list_sum_const c l h]
  field_simp

/-- A nonempty constant list has zero total sum of squared deviations. -/
theorem ssTot_const (c : ℚ) (l : List ℚ) (hl : l ≠ []) (h : ∀ a ∈ l, a = c) :
    ssTot l = 0 := by
  unfold ssTot
  apply List.sum_eq_zero
  intro x hx
  obtain ⟨a, ha, rfl⟩ := List.mem_map.mp hx
  rw [h a ha, npMean_const c l hl h]
  ring

/-- Dividing by a zero denominator never yields a finite numpy value. -/
theorem npDivQ_zero_isFin (a : ℚ) : (npDivQ a 0).isFin = false := by
  unfold npDivQ
  rw [if_pos rfl]
  split_ifs <;> rfl

/-- `1 - x` preserves (non-)finiteness of numpy values. -/
theorem npOneSub_isFin (v : NpVal) : (npOneSub v).isFin = v.isFin := by
  cases v <;> rfl

/-- Expanding a sum of squared deviations about an arbitrary centre `m`. -/
theorem sum_sq_about (m : ℚ) (l : List ℚ) :
    (l.map (fun x => (x - m) ^ 2)).sum
      = sumSq l - 2 * m * l.sum + (l.length : ℚ) * m ^ 2 := by
  induction l with
  | nil => simp [sumSq]
  | cons a t ih =>
    rw [List.map_cons, List.sum_cons, ih, sumSq_cons, List.sum_cons, List.length_cons]
    push_cast
    ring

/-- `ssTot` in closed form: sum of squares minus the square of the sum over `n`. -/
theorem ssTot_closed (l : List ℚ) (hl : l ≠ []) :
    ssTot l = sumSq l - l.sum ^ 2 / l.length := by
  have h0 : l.length ≠ 0 := fun h0 => hl (List.length_eq_zero.mp h0)
  have hn : (l.length : ℚ) ≠ 0 := Nat.cast_ne_zero.mpr h0
  unfold ssTot npMean
  rw [sum_sq_about]
  field_simp
  ring

/-- For a zero-sum list the squared deviations from the mean are plain squares. -/
theorem ssTot_of_sum_zero (l : List ℚ) (hl : l ≠ []) (h0 : l.sum = 0) :
    ssTot l = sumSq l := by
  rw [ssTot_closed l hl, h0]
  simp

/-- The numpy maximum of a nonempty list agrees with the spec's `max(y)`. -/
theorem npMax_eq_specMax (l : List ℚ) (hl : l ≠ []) : npMax l = specMax l := by
  obtain ⟨a, t, rfl⟩ := List.exists_cons_of_ne_nil hl
  simp [npMax, specMax, List.max?, List.foldl_cons, max_self]

/-! ## Claim C1: isolation of fit failures -/

/-- C1 counterexample: in the kinetics path a pseudo-first-order failure on
a valid series (here a series with one point, PFO oracle `none`) skips the
pseudo-second-order fit of that same series: only `pfo` is attempted and
the sheet contributes no result, even though the PSO oracle had a result
available.  This refutes the claim that a fit failure for one
(series, model) pair leaves all other (series, model) fits attempted. -/
theorem claim1_cex :
    kineticsSheetStep [1] Option.none
        (Option.some ⟨"S1", "Pseudo Second Order", 1, 1, NpVal.fin 1⟩)
      = Except.ok ([], [KModel.pfo]) ∧
    KModel.pso ∉ [KModel.pfo] := by
  exact ⟨rfl, by decide⟩

/-- C1 amended: in the isotherm path a fit failure for one (series, model)
pair leaves every other fit attempted and its results unchanged, and a
batch with one non-converging fit and one converging fit yields exactly
one `FitRec` with no run-level failure.  In the kinetics path series are
isolated from one another — a sheet whose first-order fit raises
contributes nothing but leaves the rest of the batch unchanged — and a
second-order failure after a first-order success keeps the first-order
row; but a first-order failure skips the second-order fit of its series. -/
theorem claim1_amended (ce q q2 : List ℚ) (hce : ce ≠ []) (hq : q ≠ [])
    (hq2 : q2 ≠ []) (oL oF o2 : Option FitRec) (r1 rF : FitRec)
    (rest : List KSheet) :
    isothermSheetStep ce q oL oF
        = (oL.toList ++ oF.toList, [IModel.langmuir, IModel.freundlich]) ∧
    isothermRun [⟨ce, q, Option.none, Option.some rF⟩] = Option.some [rF] ∧
    kineticsSheetStep q2 (Option.some r1) o2
        = Except.ok (r1 :: o2.toList, [KModel.pfo, KModel.pso]) ∧
    kineticsBatch (⟨q2, Option.none, o2⟩ :: rest) = kineticsBatch rest := by
  have hce0 : ¬ ce.length = 0 := fun h => hce (List.length_eq_zero.mp h)
  have hq0 : ¬ q.length = 0 := fun h => hq (List.length_eq_zero.mp h)
  have hq20 : ¬ q2.length = 0 := fun h => hq2 (List.length_eq_zero.mp h)
  have hstepI : isothermSheetStep ce q Option.none (Option.some rF)
      = ([rF], [IModel.langmuir, IModel.freundlich]) := by
    unfold isothermSheetStep
    rw [if_neg (by tauto)]
    rfl
  have hstepK : kineticsSheetStep q2 Option.none o2
      = Except.ok ([], [KModel.pfo]) := by
    unfold kineticsSheetStep
    rw [if_neg hq20]
  refine ⟨?_, ?_, ?_, ?_⟩
  · unfold isothermSheetStep
    rw [if_neg (by tauto)]
  · have hbatch : isothermBatch [⟨ce, q, Option.none, Option.some rF⟩] = [rF] := by
      show (isothermSheetStep ce q Option.none (Option.some rF)).1
          ++ isothermBatch [] = [rF]
      rw [hstepI]
      rfl
    rw [isothermRun, hbatch]
    rfl
  · unfold kineticsSheetStep
    rw [if_neg hq20]
  · show (match kineticsSheetStep q2 Option.none o2 with
      | Except.error e => Except.error e
      | Except.ok p =>
        match kineticsBatch rest with
        | Except.error e => Except.error e
        | Except.ok rs => Except.ok (p.1 ++ rs)) = kineticsBatch rest
    rw [hstepK]
    cases kineticsBatch rest <;> simp

/-- C1 witness: the amended theorem applied at a concrete batch — a
Langmuir failure next to a converging Freundlich fit yields exactly that
one result with no run-level failure. -/
theorem claim1_witness :
    isothermRun [⟨[1], [2], Option.none,
        Option.some ⟨"S1", "Freundlich", 1, 1, NpVal.fin 1⟩⟩]
      = Option.some [⟨"S1", "Freundlich", 1, 1, NpVal.fin 1⟩] :=
  (claim1_amended [1] [2] [3] (by simp) (by simp) (by simp)
    Option.none Option.none Option.none
    ⟨"S1", "Freundlich", 1, 1, NpVal.fin 1⟩
    ⟨"S1", "Freundlich", 1, 1, NpVal.fin 1⟩ []).2.1

/-! ## Claim C2: behaviour of the four entry points on an empty results list -/

/-- C2: on a batch in which no series produced any usable record, the
kinetics and isotherm entry points return the explicit `None` signal, but
the FTIR and XRD entry points raise: `pd.DataFrame([])` has no columns,
so `sort_values(by=['Sample', ...])` raises `KeyError`.  This evaluates
the aggregation tails of all four entry points at the empty results
list. -/
theorem claim2_eval :
    ftirFinalize [] = Except.error RunErr.keyError ∧
    xrdFinalize [] = Except.error RunErr.keyError ∧
    kineticsFinalize [] = Option.none ∧
    isothermFinalize [] = Option.none := by
  exact ⟨rfl, rfl, rfl, rfl⟩

/-! ## Claim C3: constant series yield a non-finite R-squared, no raise -/

/-- C3: for every constant nonempty series `y` (so `SS_tot = 0`) and every
residual vector, both R-squared formulas of the repository evaluate to a
non-finite sentinel (`nan` or `-inf`) — numpy division by zero warns and
produces a sentinel rather than raising — for every model attempted, since
both kinetic models use `r2Kinetics` and both isotherm models use
`r2Isotherm`. -/
theorem claim3_sentinel (res y : List ℚ) (hy : y ≠ [])
    (hc : ∀ a ∈ y, ∀ b ∈ y, a = b) :
    (r2Kinetics res y).isFin = false ∧ (r2Isotherm res y).isFin = false := by
  obtain ⟨a, t, rfl⟩ := List.exists_cons_of_ne_nil hy
  have hconst : ∀ x ∈ a :: t, x = a :=
    fun x hx => hc x hx a (List.mem_cons_self a t)
  have hss : ssTot (a :: t) = 0 := ssTot_const a (a :: t) hy hconst
  have hvar : npVar (a :: t) = 0 := by
    unfold npVar
    rw [hss]
    simp
  constructor
  · unfold r2Kinetics
    rw [hvar, npOneSub_isFin]
    exact npDivQ_zero_isFin _
  · unfold r2Isotherm
    rw [hss, npOneSub_isFin]
    exact npDivQ_zero_isFin _

/-- C3 witness: the spec's example, the constant series `y = [5,5,5,5]`. -/
theorem claim3_witness :
    (r2Kinetics [1, 2] [5, 5, 5, 5]).isFin = false ∧
    (r2Isotherm [1, 2] [5, 5, 5, 5]).isFin = false :=
  claim3_sentinel [1, 2] [5, 5, 5, 5] (by simp)
    (by intro a ha b hb; simp at ha hb; rw [ha, hb])

/-! ## Claim C4: the reported goodness of fit -/

/-- C4 counterexample: with observed `y = [0, 2]` (non-constant) and a
residual vector `[1, 1]`, the kinetics path reports
`1 - residual.var()/np.var(y) = 1 - 0/1 = 1`, whereas
`1 - SS_res/SS_tot = 1 - 2/2 = 0`.  The claimed formula therefore does
not describe the kinetics path: `residual.var()` measures deviations of
the residuals from their own mean, not the sum of squared residuals. -/
theorem claim4_cex :
    r2Kinetics [1, 1] [0, 2]
      ≠ NpVal.fin (1 - sumSq [1, 1] / ssTot [0, 2]) := by
  norm_num [r2Kinetics, npVar, ssTot, npMean, sumSq, npDivQ, npOneSub]

/-- C4 amended: for every fitted pair with non-constant `y`, the isotherm
path reports exactly `1 - SS_res/SS_tot`; the kinetics path reports
`1 - Var(residual)/Var(y)`, which coincides with `1 - SS_res/SS_tot`
when the residual vector (of the same length as `y`) sums to zero. -/
theorem claim4_amended (res y : List ℚ) (hres : res ≠ []) (hy : y ≠ [])
    (hs : ssTot y ≠ 0) (hlen : res.length = y.length) :
    r2Isotherm res y = NpVal.fin (1 - sumSq res / ssTot y) ∧
    (res.sum = 0 → r2Kinetics res y = NpVal.fin (1 - sumSq res / ssTot y)) := by
  have h0 : y.length ≠ 0 := fun h0 => hy (List.length_eq_zero.mp h0)
  have hn : (y.length : ℚ) ≠ 0 := Nat.cast_ne_zero.mpr h0
  constructor
  · unfold r2Isotherm npDivQ
    rw [if_neg hs]
    rfl
  · intro hsum
    have hvy : npVar y ≠ 0 := by
      unfold npVar
      exact div_ne_zero hs hn
    unfold r2Kinetics npVar npDivQ
    rw [hlen, ssTot_of_sum_zero res hres hsum, if_neg (by exact hvy)]
    have hq : sumSq res / (y.length : ℚ) / (ssTot y / (y.length : ℚ))
        = sumSq res / ssTot y := by
      field_simp
    rw [hq]
    rfl

/-- C4 witness: the amended theorem at `res = [1, -1]`, `y = [0, 2]`: the
residuals sum to zero and both formulas report `1 - 2/2 = 0`. -/
theorem claim4_witness :
    r2Isotherm [1, -1] [0, 2] = NpVal.fin (1 - sumSq [1, -1] / ssTot [0, 2]) ∧
    r2Kinetics [1, -1] [0, 2] = NpVal.fin (1 - sumSq [1, -1] / ssTot [0, 2]) :=
  ⟨(claim4_amended [1, -1] [0, 2] (by simp) (by simp)
      (by norm_num [ssTot, npMean]) (by simp)).1,
   (claim4_amended [1, -1] [0, 2] (by simp) (by simp)
      (by norm_num [ssTot, npMean]) (by simp)).2 (by norm_num)⟩

/-! ## Claim C5: a series with zero valid points -/

/-- C5: in the kinetics path a sheet whose cleaned `qt` column is empty is
not skipped — `np.max` of the empty array raises `ValueError` outside the
`try` block and the whole run aborts, even though a later sheet (here one
with a converging first-order fit) was still pending.  The isotherm path
has the explicit guard and skips such a sheet, continuing the batch. -/
theorem claim5_eval :
    kineticsBatch [⟨[], Option.none, Option.none⟩,
        ⟨[1], Option.some ⟨"S2", "Pseudo First Order", 1, 1, NpVal.fin 1⟩,
          Option.none⟩]
      = Except.error RunErr.valueError ∧
    isothermBatch [⟨[], [], Option.none, Option.none⟩,
        ⟨[1], [1], Option.some ⟨"S2", "Langmuir", 1, 1, NpVal.fin 1⟩,
          Option.none⟩]
      = [⟨"S2", "Langmuir", 1, 1, NpVal.fin 1⟩] := by
  exact ⟨rfl, rfl⟩

/-! ## Facts about argsort-based peak selection -/

/-- `argsortNp` returns one index per element. -/
theorem argsortNp_length (l : List ℚ) : (argsortNp l).length = l.length := by
  unfold argsortNp
  rw [List.length_insertionSort, List.length_range]

/-- The indices produced by `argsortNp` are exactly the positions of `l`. -/
theorem mem_argsortNp (l : List ℚ) (i : ℕ) : i ∈ argsortNp l ↔ i < l.length := by
  unfold argsortNp
  rw [List.mem_insertionSort, List.mem_range]

/-- `argsortNp` lists indices in ascending order of their values. -/
theorem argsortNp_sorted (l : List ℚ) :
    (argsortNp l).Sorted (fun i j => l.getD i 0 ≤ l.getD j 0) := by
  haveI : IsTotal ℕ (fun i j => l.getD i 0 ≤ l.getD j 0) :=
    ⟨fun a b => le_total _ _⟩
  haveI : IsTrans ℕ (fun i j => l.getD i 0 ≤ l.getD j 0) :=
    ⟨fun a b c hab hbc => le_trans hab hbc⟩
  exact List.sorted_insertionSort _ _

/-- Elements of the Python slice `a[-k:]` are elements of `a`. -/
theorem mem_pyLastSlice {α : Type} (k : ℕ) (l : List α) (a : α)
    (h : a ∈ pyLastSlice k l) : a ∈ l := by
  unfold pyLastSlice at h
  split_ifs at h
  · exact h
  · exact List.mem_of_mem_drop h

/-- Every pair kept by the prominence filter carries the prominence of its
position and clears the threshold. -/
theorem mem_keptPeaks (x : List ℚ) (pm : ℚ) (q : ℕ × ℚ)
    (h : q ∈ keptPeaks x pm) : q.2 = promAt x q.1 ∧ pm ≤ q.2 := by
  unfold keptPeaks at h
  have h1 := List.mem_filter.mp h
  obtain ⟨p, _, rfl⟩ := List.mem_map.mp h1.1
  exact ⟨rfl, of_decide_eq_true h1.2⟩

/-- Every position selected by the top-k step came from the kept pairs, so
its prominence clears the threshold. -/
theorem mem_prominentPeaks (x : List ℚ) (pm : ℚ) (k : ℕ) (p : ℕ)
    (h : p ∈ prominentPeaks x pm k) : pm ≤ promAt x p := by
  simp only [prominentPeaks] at h
  obtain ⟨i, hi, rfl⟩ := List.mem_map.mp h
  have hi2 : i ∈ argsortNp ((keptPeaks x pm).map Prod.snd) :=
    mem_pyLastSlice _ _ _ hi
  have hilt : i < ((keptPeaks x pm).map Prod.snd).length :=
    (mem_argsortNp _ _).mp hi2
  have hklt : i < (keptPeaks x pm).length := by
    simpa using hilt
  have hget : ((keptPeaks x pm).map Prod.fst).getD i 0
      = ((keptPeaks x pm).get (Fin.mk i hklt)).1 := by
    rw [List.getD_eq_getElem _ _ (by simpa using hklt)]
    simp
  have hmem := mem_keptPeaks x pm ((keptPeaks x pm).get (Fin.mk i hklt))
    (List.get_mem (keptPeaks x pm) i hklt)
  rw [hget, ← hmem.1]
  exact hmem.2

/-- With a positive cap, the top-k step keeps at most `k` positions. -/
theorem prominentPeaks_length_le (x : List ℚ) (pm : ℚ) (k : ℕ) (hk : 1 ≤ k) :
    (prominentPeaks x pm k).length ≤ k := by
  simp only [prominentPeaks, pyLastSlice]
  rw [if_neg (by omega), List.length_map, List.length_drop]
  omega

/-- When no more candidates qualify than the cap allows, every kept
candidate's position is selected. -/
theorem prominentPeaks_all (x : List ℚ) (pm : ℚ) (k : ℕ)
    (hle : (keptPeaks x pm).length ≤ k) (q : ℕ × ℚ) (hq : q ∈ keptPeaks x pm) :
    q.1 ∈ prominentPeaks x pm k := by
  obtain ⟨j, hj⟩ := List.get_of_mem hq
  have hjlt : (j : ℕ) < (keptPeaks x pm).length := j.isLt
  have hjmem : (j : ℕ) ∈ argsortNp ((keptPeaks x pm).map Prod.snd) := by
    rw [mem_argsortNp, List.length_map]
    exact hjlt
  have hslice : (j : ℕ) ∈ pyLastSlice k (argsortNp ((keptPeaks x pm).map Prod.snd)) := by
    unfold pyLastSlice
    split_ifs
    · exact hjmem
    · have hz : (argsortNp ((keptPeaks x pm).map Prod.snd)).length - k = 0 := by
        rw [argsortNp_length, List.length_map]
        omega
      rw [hz, List.drop_zero]
      exact hjmem
  simp only [prominentPeaks]
  refine List.mem_map.mpr ⟨(j : ℕ), hslice, ?_⟩
  rw [List.getD_eq_getElem _ _ (by simp [hjlt])]
  rw [List.getElem_map]
  rw [← hj]
  rfl

/-- Dominance of the selection: with a positive cap, every selected index
carries a prominence at least that of every index left behind. -/
theorem prominentPeaks_dominant (x : List ℚ) (pm : ℚ) (k : ℕ) (hk : 1 ≤ k)
    (i j : ℕ)
    (hi : i ∈ (argsortNp ((keptPeaks x pm).map Prod.snd)).take
      ((keptPeaks x pm).length - k))
    (hj : j ∈ pyLastSlice k (argsortNp ((keptPeaks x pm).map Prod.snd))) :
    ((keptPeaks x pm).map Prod.snd).getD i 0
      ≤ ((keptPeaks x pm).map Prod.snd).getD j 0 := by
  have hs := argsortNp_sorted ((keptPeaks x pm).map Prod.snd)
  have hj' : j ∈ (argsortNp ((keptPeaks x pm).map Prod.snd)).drop
      ((keptPeaks x pm).length - k) := by
    unfold pyLastSlice at hj
    rw [if_neg (by omega)] at hj
    rw [argsortNp_length, List.length_map] at hj
    exact hj
  exact hs.rel_of_mem_take_of_mem_drop hi hj'

instance : IsTotal XRec xIntensityGe :=
  ⟨fun a b => le_total b.intensity a.intensity⟩

instance : IsTrans XRec xIntensityGe :=
  ⟨fun _ _ _ hab hbc => le_trans hbc hab⟩

/-- Each per-sheet XRD peak table is stored sorted by intensity descending. -/
theorem xrdSheetRecords_sorted (sample : String) (theta intensity : List ℚ)
    (pm : ℚ) (k : ℕ) :
    (xrdSheetRecords sample theta intensity pm k).Sorted xIntensityGe := by
  unfold xrdSheetRecords
  exact List.sorted_insertionSort _ _

/-! ## Claim C6: peak selection and storage order -/

/-- C6 counterexample: with `num_peaks = 0` the Python slice
`peaks[np.argsort(prominences)[-0:]]` is `peaks[0:]`, the whole
candidate array — on the signal `[0,10,0,7,0,3,0]` (three candidates of
prominences 10, 7, 3, threshold 1) the code keeps all three candidates,
not at most zero, refuting "keeps at most maxPeaks candidates" as a
universal statement over the configuration. -/
theorem claim6_cex :
    (prominentPeaks [0, 10, 0, 7, 0, 3, 0] 1 0).length = 3 ∧
    ¬ (prominentPeaks [0, 10, 0, 7, 0, 3, 0] 1 0).length ≤ 0 := by
  have h : prominentPeaks [0, 10, 0, 7, 0, 3, 0] 1 0 = [5, 3, 1] := by
    norm_num [prominentPeaks, keptPeaks, peakMidpoints, isLeftEdgeMax, plateauLen,
      promAt, scanMin, List.range_succ, argsortNp, pyLastSlice,
      List.insertionSort, List.orderedInsert]
  rw [h]
  simp

/-- C6 amended: for every signal, candidates below the prominence
threshold are discarded (every selected position clears it); provided
`maxPeaks ≥ 1`, at most `maxPeaks` positions are kept (with
`maxPeaks = 0` the Python slice `[-0:]` keeps every qualifying
candidate); when no more candidates qualify than the cap, all of them
are kept; every selected index's prominence is at least that of every
unselected one; the stored per-sheet output is ordered by y-value
(intensity) descending; and on the spec's example — three candidates of
prominences 10, 7, 3 at threshold 1 with `maxPeaks = 2` — exactly the
candidates of prominences 10 and 7 are returned, ordered by intensity
descending. -/
theorem claim6_amended (x theta : List ℚ) (pm : ℚ) (k : ℕ) (sample : String)
    (hk : 1 ≤ k) :
    (∀ p ∈ prominentPeaks x pm k, pm ≤ promAt x p) ∧
    (prominentPeaks x pm k).length ≤ k ∧
    ((keptPeaks x pm).length ≤ k →
      ∀ q ∈ keptPeaks x pm, q.1 ∈ prominentPeaks x pm k) ∧
    (∀ i ∈ (argsortNp ((keptPeaks x pm).map Prod.snd)).take
        ((keptPeaks x pm).length - k),
      ∀ j ∈ pyLastSlice k (argsortNp ((keptPeaks x pm).map Prod.snd)),
        ((keptPeaks x pm).map Prod.snd).getD i 0
          ≤ ((keptPeaks x pm).map Prod.snd).getD j 0) ∧
    (xrdSheetRecords sample theta x pm k).Sorted xIntensityGe ∧
    xrdSheetRecords "A" [0, 1, 2, 3, 4, 5, 6] [0, 10, 0, 7, 0, 3, 0] 1 2
      = [⟨"A", 1, 10⟩, ⟨"A", 3, 7⟩] := by
  refine ⟨fun p hp => mem_prominentPeaks x pm k p hp,
    prominentPeaks_length_le x pm k hk,
    fun hle q hq => prominentPeaks_all x pm k hle q hq,
    fun i hi j hj => prominentPeaks_dominant x pm k hk i j hi hj,
    xrdSheetRecords_sorted sample theta x pm k, ?_⟩
  norm_num [xrdSheetRecords, prominentPeaks, keptPeaks, peakMidpoints,
    isLeftEdgeMax, plateauLen, promAt, scanMin, List.range_succ, argsortNp,
    pyLastSlice, List.insertionSort, List.orderedInsert, xIntensityGe]

/-- C6 witness: the amended theorem at the spec's example configuration. -/
theorem claim6_witness :
    (prominentPeaks [0, 10, 0, 7, 0, 3, 0] 1 2).length ≤ 2 ∧
    xrdSheetRecords "A" [0, 1, 2, 3, 4, 5, 6] [0, 10, 0, 7, 0, 3, 0] 1 2
      = [⟨"A", 1, 10⟩, ⟨"A", 3, 7⟩] :=
  ⟨(claim6_amended [0, 10, 0, 7, 0, 3, 0] [0, 1, 2, 3, 4, 5, 6] 1 2 "A"
      (by omega)).2.1,
   (claim6_amended [0, 10, 0, 7, 0, 3, 0] [0, 1, 2, 3, 4, 5, 6] 1 2 "A"
      (by omega)).2.2.2.2.2⟩

/-! ## Facts about `np.argmin`-based nearest-neighbour matching -/

/-- The chosen index is in bounds for a nonempty axis. -/
theorem argminAbs_lt_length (t : ℚ) :
    ∀ (l : List ℚ), l ≠ [] → argminAbs t l < l.length
  | [], h => absurd rfl h
  | [_], _ => by simp [argminAbs]
  | a :: b :: rest, _ => by
    have ih := argminAbs_lt_length t (b :: rest) (by simp)
    simp only [argminAbs]
    split_ifs
    · simpa [List.length_cons] using Nat.succ_lt_succ ih
    · simp [List.length_cons]

/-- The chosen index attains the minimal absolute difference. -/
theorem argminAbs_min (t : ℚ) :
    ∀ (l : List ℚ) (j : ℕ), j < l.length →
      |l.getD (argminAbs t l) 0 - t| ≤ |l.getD j 0 - t|
  | [], j, hj => by simp at hj
  | [a], j, hj => by
    have hj0 : j = 0 := by simpa using Nat.lt_one_iff.mp (by simpa using hj)
    subst hj0
    simp [argminAbs]
  | a :: b :: rest, j, hj => by
    simp only [argminAbs]
    split_ifs with hcase
    · cases j with
      | zero =>
        rw [List.getD_cons_succ, List.getD_cons_zero]
        exact le_of_lt hcase
      | succ j2 =>
        rw [List.getD_cons_succ, List.getD_cons_succ]
        exact argminAbs_min t (b :: rest) j2
          (by simpa [List.length_cons] using hj)
    · cases j with
      | zero => simp
      | succ j2 =>
        rw [List.getD_cons_zero, List.getD_cons_succ]
        exact le_trans (not_lt.mp hcase)
          (argminAbs_min t (b :: rest) j2 (by simpa [List.length_cons] using hj))

/-- Every earlier index has a strictly larger absolute difference: ties are
broken by the first occurrence in axis order, as `np.argmin` does. -/
theorem argminAbs_first (t : ℚ) :
    ∀ (l : List ℚ) (j : ℕ), j < argminAbs t l →
      |l.getD (argminAbs t l) 0 - t| < |l.getD j 0 - t|
  | [], j, hj => by simp [argminAbs] at hj
  | [_], j, hj => by simp [argminAbs] at hj
  | a :: b :: rest, j, hj => by
    simp only [argminAbs] at hj ⊢
    split_ifs at hj ⊢ with hcase
    · cases j with
      | zero =>
        rw [List.getD_cons_succ, List.getD_cons_zero]
        exact hcase
      | succ j2 =>
        rw [List.getD_cons_succ, List.getD_cons_succ]
        exact argminAbs_first t (b :: rest) j2 (Nat.lt_of_succ_lt_succ hj)
    · exact absurd hj (Nat.not_lt_zero j)

/-! ## Claim C7: the reference matcher -/

/-- C7: for every nonempty axis and every reference sequence, the matcher
emits exactly one assignment per reference; each assignment's index is in
bounds, minimizes the absolute difference to the reference's target
position over the whole axis, and every strictly earlier index misses the
minimum strictly (first-occurrence tie-breaking).  On the spec's example,
targets 100 and 500 against axis `[0,100,200,600]` match the axis values
100 and 600 with their parallel y-values. -/
theorem claim7_matcher (axis vals : List ℚ) (refs : List FRef)
    (h : axis ≠ []) :
    (matchRefs axis vals refs).length = refs.length ∧
    (∀ r ∈ refs,
      argminAbs r.target axis < axis.length ∧
      (∀ j < axis.length,
        |axis.getD (argminAbs r.target axis) 0 - r.target|
          ≤ |axis.getD j 0 - r.target|) ∧
      (∀ j < argminAbs r.target axis,
        |axis.getD (argminAbs r.target axis) 0 - r.target|
          < |axis.getD j 0 - r.target|)) ∧
    matchRefs [0, 100, 200, 600] [7, 8, 9, 10] [⟨100, "x"⟩, ⟨500, "y"⟩]
      = [(100, 8), (600, 10)] := by
  refine ⟨by simp [matchRefs], fun r _ => ⟨argminAbs_lt_length r.target axis h,
    fun j hj => argminAbs_min r.target axis j hj,
    fun j hj => argminAbs_first r.target axis j hj⟩, ?_⟩
  norm_num [matchRefs, argminAbs]

/-- C7 witness: the matcher theorem applied at the spec's example axis. -/
theorem claim7_witness :
    (matchRefs [0, 100, 200, 600] [7, 8, 9, 10] [⟨100, "x"⟩, ⟨500, "y"⟩]).length
      = 2 ∧
    matchRefs [0, 100, 200, 600] [7, 8, 9, 10] [⟨100, "x"⟩, ⟨500, "y"⟩]
      = [(100, 8), (600, 10)] :=
  ⟨(claim7_matcher [0, 100, 200, 600] [7, 8, 9, 10] [⟨100, "x"⟩, ⟨500, "y"⟩]
      (by simp)).1,
   (claim7_matcher [0, 100, 200, 600] [7, 8, 9, 10] [⟨100, "x"⟩, ⟨500, "y"⟩]
      (by simp)).2.2⟩

/-! ## The summary-table orderings are total and transitive -/

instance : IsTotal XRec xSummaryLe := by
  refine ⟨fun a b => ?_⟩
  unfold xSummaryLe
  rcases lt_trichotomy a.sample b.sample with h | h | h
  · exact Or.inl (Or.inl h)
  · rcases le_total b.intensity a.intensity with hi | hi
    · exact Or.inl (Or.inr ⟨h, hi⟩)
    · exact Or.inr (Or.inr ⟨h.symm, hi⟩)
  · exact Or.inr (Or.inl h)

instance : IsTrans XRec xSummaryLe := by
  refine ⟨fun a b c hab hbc => ?_⟩
  unfold xSummaryLe at hab hbc ⊢
  rcases hab with h1 | ⟨h1, hi1⟩ <;> rcases hbc with h2 | ⟨h2, hi2⟩
  · exact Or.inl (lt_trans h1 h2)
  · exact Or.inl (h2 ▸ h1)
  · exact Or.inl (show a.sample < c.sample by rw [h1]; exact h2)
  · exact Or.inr ⟨h1.trans h2, le_trans hi2 hi1⟩

instance : IsTotal FRow fSummaryLe := by
  refine ⟨fun a b => ?_⟩
  unfold fSummaryLe
  rcases lt_trichotomy a.sample b.sample with h | h | h
  · exact Or.inl (Or.inl h)
  · rcases le_total b.transmittance a.transmittance with hi | hi
    · exact Or.inl (Or.inr ⟨h, hi⟩)
    · exact Or.inr (Or.inr ⟨h.symm, hi⟩)
  · exact Or.inr (Or.inl h)

instance : IsTrans FRow fSummaryLe := by
  refine ⟨fun a b c hab hbc => ?_⟩
  unfold fSummaryLe at hab hbc ⊢
  rcases hab with h1 | ⟨h1, hi1⟩ <;> rcases hbc with h2 | ⟨h2, hi2⟩
  · exact Or.inl (lt_trans h1 h2)
  · exact Or.inl (h2 ▸ h1)
  · exact Or.inl (show a.sample < c.sample by rw [h1]; exact h2)
  · exact Or.inr ⟨h1.trans h2, le_trans hi2 hi1⟩

/-! ## Claim C8: final summary tables are ordered by (series asc, y desc) -/

/-- C8: on every nonempty results list the XRD and FTIR finalizers emit a
permutation of the rows sorted by sample name ascending and, within a
sample, by matched y-value (intensity/transmittance) descending; and the
full XRD pipeline on a concrete batch — sample A with peak intensities 9
and 5, sample B with 3 — lists them in the order A/9, A/5, B/3. -/
theorem claim8_sorted (xrows : List XRec) (frows : List FRow)
    (hx : xrows ≠ []) (hf : frows ≠ []) :
    (∃ l, xrdFinalize xrows = Except.ok l ∧
      l.Sorted xSummaryLe ∧ l.Perm xrows) ∧
    (∃ l, ftirFinalize frows = Except.ok l ∧
      l.Sorted fSummaryLe ∧ l.Perm frows) ∧
    xrdRun [("A", [0, 1, 2, 3, 4], [0, 9, 0, 5, 0]), ("B", [0, 1, 2], [0, 3, 0])]
        1 15
      = Except.ok [⟨"A", 1, 9⟩, ⟨"A", 3, 5⟩, ⟨"B", 1, 3⟩] := by
  have hx0 : ¬ xrows.length = 0 := fun h => hx (List.length_eq_zero.mp h)
  have hf0 : ¬ frows.length = 0 := fun h => hf (List.length_eq_zero.mp h)
  refine ⟨⟨List.insertionSort xSummaryLe xrows, ?_, List.sorted_insertionSort _ _,
      List.perm_insertionSort _ _⟩,
    ⟨List.insertionSort fSummaryLe frows, ?_, List.sorted_insertionSort _ _,
      List.perm_insertionSort _ _⟩, ?_⟩
  · unfold xrdFinalize
    rw [if_neg hx0]
  · unfold ftirFinalize
    rw [if_neg hf0]
  · norm_num [xrdRun, xrdFinalize, xrdSheetRecords, prominentPeaks, keptPeaks,
      peakMidpoints, isLeftEdgeMax, plateauLen, promAt, scanMin, List.range_succ,
      argsortNp, pyLastSlice, List.insertionSort, List.orderedInsert,
      xIntensityGe, xSummaryLe, List.flatMap]

/-- C8 witness: the sorting theorem applied to concrete one-row tables and
the concrete two-sample XRD batch. -/
theorem claim8_witness :
    (∃ l, xrdFinalize [⟨"B", 1, 3⟩] = Except.ok l ∧
      l.Sorted xSummaryLe ∧ l.Perm [⟨"B", 1, 3⟩]) ∧
    xrdRun [("A", [0, 1, 2, 3, 4], [0, 9, 0, 5, 0]), ("B", [0, 1, 2], [0, 3, 0])]
        1 15
      = Except.ok [⟨"A", 1, 9⟩, ⟨"A", 3, 5⟩, ⟨"B", 1, 3⟩] :=
  ⟨(claim8_sorted [⟨"B", 1, 3⟩] [⟨"B", 1, 3⟩] (by simp) (by simp)).1,
   (claim8_sorted [⟨"B", 1, 3⟩] [⟨"B", 1, 3⟩] (by simp) (by simp)).2.2⟩

/-! ## Claim C9: the model catalog equals the spec's table -/

/-- C9: the two fitting modules define exactly the four models — two
kinetic, two isotherm — and each embedded formula and initial-guess rule
equals the spec table's reference definition: pseudo-first-order
`qe·(1 − e^(−k1·t))` with guesses `(max y, 0.1)`; pseudo-second-order
`qe²·k2·t/(1 + qe·k2·t)` with `(max y, 0.001)`; Langmuir
`qm·kL·Ce/(1 + kL·Ce)` with `(max y, 0.1)`; Freundlich `kF·Ce^(1/n)`
with `(1.0, 1.0)` — for every exp/power oracle, every argument and every
nonempty series. -/
theorem claim9_catalog (ex : ℚ → ℚ) (rp : ℚ → ℚ → ℚ)
    (t ce qe k1 k2 qm kL kF n : ℚ) (y : List ℚ) (hy : y ≠ []) :
    kineticsCatalog.length = 2 ∧
    isothermCatalog.length = 2 ∧
    kineticsCatalog.map ModelEntry.name
      = ["Pseudo First Order", "Pseudo Second Order"] ∧
    isothermCatalog.map ModelEntry.name = ["Langmuir", "Freundlich"] ∧
    pseudo_first_order ex t qe k1 = specPfo ex t qe k1 ∧
    pseudo_second_order t qe k2 = specPso t qe k2 ∧
    langmuir_isotherm ce qm kL = specLangmuir ce qm kL ∧
    freundlich_isotherm rp ce kF n = specFreundlich rp ce kF n ∧
    pfoInit y = (specMax y, 1 / 10) ∧
    psoInit y = (specMax y, 1 / 1000) ∧
    langmuirInit y = (specMax y, 1 / 10) ∧
    freundlichInit y = (1, 1) := by
  refine ⟨rfl, rfl, rfl, rfl, ?_, rfl, rfl, rfl, ?_, ?_, ?_, rfl⟩
  · unfold pseudo_first_order specPfo
    rw [neg_mul]
  · unfold pfoInit
    rw [npMax_eq_specMax y hy]
  · unfold psoInit
    rw [npMax_eq_specMax y hy]
  · unfold langmuirInit
    rw [npMax_eq_specMax y hy]

/-- C9 witness: the catalog theorem at a concrete oracle and series. -/
theorem claim9_witness :
    pfoInit [3, 5] = (specMax [3, 5], 1 / 10) ∧
    pseudo_first_order id 1 2 3 = specPfo id 1 2 3 :=
  ⟨(claim9_catalog id (fun a _ => a) 0 0 0 0 0 0 0 0 0 [3, 5]
      (by simp)).2.2.2.2.2.2.2.2.1,
   (claim9_catalog id (fun a _ => a) 1 0 2 3 0 0 0 0 0 [3, 5]
      (by simp)).2.2.2.2.1⟩

/-! ## Claim C10: missing values are removed per column, not per row -/

/-- C10: the cleaned x-sequence depends only on the sheet's first column
(and symmetrically for y), so the two sequences are paired positionally
after independent per-column filtering; on a sheet with missing cells at
different row positions the two cleaned columns have different lengths,
and the positional pairing differs from the row-wise pairing the claim
contrasts with. -/
theorem claim10_percolumn (rows rows2 : List (Option ℚ × Option ℚ))
    (h1 : rows.map Prod.fst = rows2.map Prod.fst)
    (h2 : rows.map Prod.snd = rows2.map Prod.snd) :
    (dropnaColumns rows).1 = (dropnaColumns rows2).1 ∧
    (dropnaColumns rows).2 = (dropnaColumns rows2).2 ∧
    dropnaColumns [(Option.some 1, Option.none), (Option.some 2, Option.some 10),
        (Option.none, Option.some 20), (Option.none, Option.some 30)]
      = ([1, 2], [10, 20, 30]) ∧
    ¬ (dropnaColumns [(Option.some 1, Option.none), (Option.some 2, Option.some 10),
        (Option.none, Option.some 20), (Option.none, Option.some 30)]).1.length
      = (dropnaColumns [(Option.some 1, Option.none), (Option.some 2, Option.some 10),
        (Option.none, Option.some 20), (Option.none, Option.some 30)]).2.length ∧
    rowwiseDropna [(Option.some 1, Option.none), (Option.some 2, Option.some 10),
        (Option.none, Option.some 20), (Option.none, Option.some 30)]
      = [(2, 10)] ∧
    ¬ (dropnaColumns [(Option.some 1, Option.none), (Option.some 2, Option.some 10),
        (Option.none, Option.some 20), (Option.none, Option.some 30)]).1.zip
        (dropnaColumns [(Option.some 1, Option.none), (Option.some 2, Option.some 10),
        (Option.none, Option.some 20), (Option.none, Option.some 30)]).2
      = rowwiseDropna [(Option.some 1, Option.none), (Option.some 2, Option.some 10),
        (Option.none, Option.some 20), (Option.none, Option.some 30)] := by
  refine ⟨by simp [dropnaColumns, h1], by simp [dropnaColumns, h2], rfl, ?_, rfl, ?_⟩
  · intro hcontra
    simp [dropnaColumns, List.filterMap_cons] at hcontra
  · intro hcontra
    have hlen := congrArg List.length hcontra
    simp [dropnaColumns, rowwiseDropna, List.filterMap_cons] at hlen

/-- C10 witness: the per-column independence applied to two concrete
sheets sharing the x-column but differing in the y-column. -/
theorem claim10_witness :
    (dropnaColumns [(Option.some 1, Option.none)]).1
      = (dropnaColumns [(Option.some 1, Option.some 2)]).1 :=
  (claim10_percolumn [(Option.some 1, Option.none)]
    [(Option.some 1, Option.none)] rfl rfl).1.trans
    (by norm_num [dropnaColumns])
